import Mathlib

/-!
# Verification of `sc_creature.cpp` (ScriptedAI decision engine)

Shallow embedding of the ability-selection and combat-lifecycle code of
`src/game/AI/ScriptDevAI/include/sc_creature.cpp`, together with proofs of
the specification's testable properties.

Floats of the source are modelled as exact rationals `ℚ`; machine integers
as `Nat`/`Int`; global stores (spell store, range store, spell summary) as
explicit function parameters; the diagnostic log sink and the calls into
`EnterEvadeMode` are modelled by counting them in the returned record.
-/

set_option autoImplicit false

namespace ScCreature

/-! ## Constants

Target-descriptor, effect-kind and aura identifiers come from the engine
headers (SharedDefines.h), which are external to this repository's source;
their concrete numeric values are irrelevant to the proofs, only their
pairwise distinctness within each comparison group matters. -/

def TARGET_SELF : Nat := 1
def TARGET_CHAIN_DAMAGE : Nat := 6
def TARGET_ALL_ENEMY_IN_AREA : Nat := 15
def TARGET_ALL_ENEMY_IN_AREA_INSTANT : Nat := 16
def TARGET_SINGLE_FRIEND : Nat := 21
def TARGET_CASTER_COORDINATES : Nat := 22
def TARGET_ALL_PARTY_AROUND_CASTER : Nat := 23
def TARGET_SINGLE_PARTY : Nat := 25
def TARGET_ALL_ENEMY_IN_AREA_CHANNELED : Nat := 28
def TARGET_AREAEFFECT_PARTY : Nat := 33
def TARGET_CURRENT_ENEMY_COORDINATES : Nat := 53

def SPELL_EFFECT_INSTAKILL : Nat := 1
def SPELL_EFFECT_SCHOOL_DAMAGE : Nat := 2
def SPELL_EFFECT_APPLY_AURA : Nat := 6
def SPELL_EFFECT_ENVIRONMENTAL_DAMAGE : Nat := 7
def SPELL_EFFECT_HEALTH_LEECH : Nat := 9
def SPELL_EFFECT_HEAL : Nat := 10
def SPELL_EFFECT_HEAL_MAX_HEALTH : Nat := 67
def SPELL_EFFECT_HEAL_MECHANICAL : Nat := 75

/-- `SPELL_AURA_PERIODIC_HEAL`: the literal `8` used in `FillSpellSummary`. -/
def SPELL_AURA_PERIODIC_HEAL : Nat := 8

/-- Modelled from the spec: the `SelectTarget` enum of `sc_creature.h` (not
under `src/`); the spec lists the target classes in the order
self / single-enemy / aoe-enemy / any-enemy / single-friend / aoe-friend /
any-friend, after the zero "don't care" value. -/
def SELECT_TARGET_SELF : Nat := 1
def SELECT_TARGET_SINGLE_ENEMY : Nat := 2
def SELECT_TARGET_AOE_ENEMY : Nat := 3
def SELECT_TARGET_ANY_ENEMY : Nat := 4
def SELECT_TARGET_SINGLE_FRIEND : Nat := 5
def SELECT_TARGET_AOE_FRIEND : Nat := 6
def SELECT_TARGET_ANY_FRIEND : Nat := 7

/-- Modelled from the spec: the `SelectEffect` enum of `sc_creature.h` (not
under `src/`); the spec lists effect classes damage / healing /
applies-persistent-effect after the zero "don't care" value. -/
def SELECT_EFFECT_DAMAGE : Nat := 1
def SELECT_EFFECT_HEALING : Nat := 2
def SELECT_EFFECT_AURA : Nat := 3

/-! ## Data model -/

/-- One per-effect slot of a `SpellEntry` (the source reads slots `j = 0..2`). -/
structure EffectSlot where
  Effect : Nat
  EffectImplicitTargetA : Nat
  EffectApplyAuraName : Nat
deriving DecidableEq

/-- The fields of `SpellEntry` read by this file. -/
structure SpellEntry where
  SchoolMask : Nat
  Mechanic : Nat
  manaCost : Nat
  powerType : Nat
  rangeIndex : Nat
  /-- The three per-effect slots (`Effect[j]`, `EffectImplicitTargetA[j]`,
  `EffectApplyAuraName[j]` for `j = 0..2`). -/
  slots : List EffectSlot
deriving DecidableEq

/-- The fields of `SpellRangeEntry` read by this file. -/
structure SpellRangeEntry where
  minRange : ℚ
  maxRange : ℚ
deriving DecidableEq

/-- The spell store (`GetSpellStore()`): max-id query and lookup by id. -/
structure SpellStore where
  GetMaxEntry : Nat
  LookupEntry : Nat → Option SpellEntry

/-- `TSpellSummary`: per-ability bitsets of target classes and effect
classes, as built by `FillSpellSummary`. -/
structure TSpellSummary where
  Targets : Nat
  Effects : Nat
deriving DecidableEq

/-- The state of `m_creature` read by the operations under verification. -/
structure Creature where
  /-- `HasFlag(UNIT_FIELD_FLAGS, UNIT_FLAG_SILENCED)` -/
  silenced : Bool
  /-- `GetPower(powerType)` -/
  GetPower : Nat → Nat
  /-- `m_spells[0..3]` -/
  m_spells : Fin 4 → Nat
  /-- `GetPositionX()` -/
  posX : ℚ
  /-- `GetPositionY()` -/
  posY : ℚ
  /-- `GetPositionZ()` -/
  posZ : ℚ
  /-- `GetRespawnCoord` x -/
  respawnX : ℚ
  /-- `GetRespawnCoord` y -/
  respawnY : ℚ
  /-- `GetEntry()` -/
  GetEntry : Nat
  /-- `IsInEvadeMode()` -/
  IsInEvadeMode : Bool
  /-- `getVictim() != nullptr` -/
  hasVictim : Bool

/-- A live target reference; the distance from the caster (in map) is the
only geometric datum the verified operations read from it. -/
structure TargetRef where
  dist : ℚ
deriving DecidableEq

/-- `Unit::IsInRange(target, minRange, maxRange)`: the target's distance
lies in the closed band. -/
def isInRange (d mn mx : ℚ) : Bool :=
  decide (mn ≤ d ∧ d ≤ mx)

/-- `WorldObject::IsWithinDistInMap(target, range)`: distance at most
`range`. -/
def isWithinDistInMap (d range : ℚ) : Bool :=
  decide (d ≤ range)

/-! ## `ScriptedAI::CanCast` -/

/-- `ScriptedAI::CanCast(target, spellInfo, triggered)`, with the global
range store passed explicitly. Pure: no side effects in the source, none
here. -/
def canCast (c : Creature) (rangeStore : Nat → Option SpellRangeEntry)
    (target : Option TargetRef) (spellInfo : Option SpellEntry)
    (triggered : Bool) : Bool :=
  match target, spellInfo with
  | none, _ => false
  | some _, none => false
  | some t, some sp =>
    if !triggered && c.silenced then false
    else if !triggered && c.GetPower sp.powerType < sp.manaCost then false
    else
      match rangeStore sp.rangeIndex with
      | none => false
      | some tempRange => isInRange t.dist tempRange.minRange tempRange.maxRange

/-! ## `ScriptedAI::SelectSpell` -/

/-- `urand(lo, hi)`: the engine's uniform random draw in `[lo, hi]`,
modelled over an explicit seed `r` so that properties quantify over every
value of the random source. -/
def urand (lo hi r : Nat) : Nat :=
  lo + r % (hi + 1 - lo)

/-- The body of the candidate loop of `ScriptedAI::SelectSpell` for one
known-spell id: `none` when any `continue` fires, `some` of the spell when
it survives every check. The checks appear in source order. -/
def spellViable (c : Creature) (store : SpellStore)
    (rangeStore : Nat → Option SpellRangeEntry)
    (SpellSummary : Nat → TSpellSummary) (dist : ℚ)
    (school mechanic : Int) (selectTargets : Nat)
    (powerCostMin powerCostMax : Nat) (rangeMin rangeMax : ℚ)
    (selectEffects : Nat) (spellId : Nat) : Option SpellEntry :=
  match store.LookupEntry spellId with
  | none => none
  | some tempSpellInfo =>
    if selectTargets ≠ 0 ∧
        (SpellSummary spellId).Targets &&& (1 <<< (selectTargets - 1)) = 0 then none
    else if selectEffects ≠ 0 ∧
        (SpellSummary spellId).Effects &&& (1 <<< (selectEffects - 1)) = 0 then none
    else if 0 ≤ school ∧ tempSpellInfo.SchoolMask &&& school.toNat ≠ 0 then none
    else if 0 ≤ mechanic ∧ (tempSpellInfo.Mechanic : Int) ≠ mechanic then none
    else if powerCostMin ≠ 0 ∧ tempSpellInfo.manaCost < powerCostMin then none
    else if powerCostMax ≠ 0 ∧ tempSpellInfo.manaCost > powerCostMax then none
    else if tempSpellInfo.manaCost > c.GetPower tempSpellInfo.powerType then none
    else
      match rangeStore tempSpellInfo.rangeIndex with
      | none => none
      | some tempRange =>
        if rangeMin ≠ 0 ∧ tempRange.maxRange < rangeMin then none
        else if rangeMax ≠ 0 ∧ tempRange.maxRange > rangeMax then none
        else if isWithinDistInMap dist tempRange.minRange ||
            !isWithinDistInMap dist tempRange.maxRange then none
        else some tempSpellInfo

/-- The `spellInfos` list built by `ScriptedAI::SelectSpell`: viable spells
among `m_spells[0..3]`, in scan order. -/
def selectSpellCandidates (c : Creature) (store : SpellStore)
    (rangeStore : Nat → Option SpellRangeEntry)
    (SpellSummary : Nat → TSpellSummary) (dist : ℚ)
    (school mechanic : Int) (selectTargets : Nat)
    (powerCostMin powerCostMax : Nat) (rangeMin rangeMax : ℚ)
    (selectEffects : Nat) : List SpellEntry :=
  (List.finRange 4).filterMap fun i =>
    spellViable c store rangeStore SpellSummary dist school mechanic
      selectTargets powerCostMin powerCostMax rangeMin rangeMax selectEffects
      (c.m_spells i)

/-- `ScriptedAI::SelectSpell`, with the global stores and the random seed
passed explicitly. -/
def selectSpell (c : Creature) (store : SpellStore)
    (rangeStore : Nat → Option SpellRangeEntry)
    (SpellSummary : Nat → TSpellSummary) (target : Option TargetRef)
    (school mechanic : Int) (selectTargets : Nat)
    (powerCostMin powerCostMax : Nat) (rangeMin rangeMax : ℚ)
    (selectEffects : Nat) (r : Nat) : Option SpellEntry :=
  match target with
  | none => none
  | some t =>
    if c.silenced then none
    else
      let spellInfos := selectSpellCandidates c store rangeStore SpellSummary
        t.dist school mechanic selectTargets powerCostMin powerCostMax
        rangeMin rangeMax selectEffects
      if spellInfos.length = 0 then none
      else spellInfos[urand 0 (spellInfos.length - 1) r]?

/-! ## `FillSpellSummary` -/

/-- The target-class bits one effect slot's implicit target descriptor
contributes in `FillSpellSummary` (the seven `if` blocks ORing into
`SpellSummary[i].Targets`). -/
def slotTargetBits (t : Nat) : Nat :=
  (if t = TARGET_SELF then 1 <<< (SELECT_TARGET_SELF - 1) else 0) |||
  (if t = TARGET_CHAIN_DAMAGE ∨ t = TARGET_CURRENT_ENEMY_COORDINATES then
    1 <<< (SELECT_TARGET_SINGLE_ENEMY - 1) else 0) |||
  (if t = TARGET_ALL_ENEMY_IN_AREA ∨ t = TARGET_ALL_ENEMY_IN_AREA_INSTANT ∨
      t = TARGET_CASTER_COORDINATES ∨ t = TARGET_ALL_ENEMY_IN_AREA_CHANNELED then
    1 <<< (SELECT_TARGET_AOE_ENEMY - 1) else 0) |||
  (if t = TARGET_CHAIN_DAMAGE ∨ t = TARGET_CURRENT_ENEMY_COORDINATES ∨
      t = TARGET_ALL_ENEMY_IN_AREA ∨ t = TARGET_ALL_ENEMY_IN_AREA_INSTANT ∨
      t = TARGET_CASTER_COORDINATES ∨ t = TARGET_ALL_ENEMY_IN_AREA_CHANNELED then
    1 <<< (SELECT_TARGET_ANY_ENEMY - 1) else 0) |||
  (if t = TARGET_SELF ∨ t = TARGET_SINGLE_FRIEND ∨ t = TARGET_SINGLE_PARTY then
    1 <<< (SELECT_TARGET_SINGLE_FRIEND - 1) else 0) |||
  (if t = TARGET_ALL_PARTY_AROUND_CASTER ∨ t = TARGET_AREAEFFECT_PARTY ∨
      t = TARGET_CASTER_COORDINATES then
    1 <<< (SELECT_TARGET_AOE_FRIEND - 1) else 0) |||
  (if t = TARGET_SELF ∨ t = TARGET_SINGLE_FRIEND ∨ t = TARGET_SINGLE_PARTY ∨
      t = TARGET_ALL_PARTY_AROUND_CASTER ∨ t = TARGET_AREAEFFECT_PARTY ∨
      t = TARGET_CASTER_COORDINATES then
    1 <<< (SELECT_TARGET_ANY_FRIEND - 1) else 0)

/-- The effect-class bits one effect slot contributes in `FillSpellSummary`
(the three `if` blocks ORing into `SpellSummary[i].Effects`). -/
def slotEffectBits (eff aura : Nat) : Nat :=
  (if eff = SPELL_EFFECT_SCHOOL_DAMAGE ∨ eff = SPELL_EFFECT_INSTAKILL ∨
      eff = SPELL_EFFECT_ENVIRONMENTAL_DAMAGE ∨ eff = SPELL_EFFECT_HEALTH_LEECH then
    1 <<< (SELECT_EFFECT_DAMAGE - 1) else 0) |||
  (if eff = SPELL_EFFECT_HEAL ∨ eff = SPELL_EFFECT_HEAL_MAX_HEALTH ∨
      eff = SPELL_EFFECT_HEAL_MECHANICAL ∨
      (eff = SPELL_EFFECT_APPLY_AURA ∧ aura = SPELL_AURA_PERIODIC_HEAL) then
    1 <<< (SELECT_EFFECT_HEALING - 1) else 0) |||
  (if eff = SPELL_EFFECT_APPLY_AURA then 1 <<< (SELECT_EFFECT_AURA - 1) else 0)

/-- One iteration of the inner `j`-loop of `FillSpellSummary`: OR the
slot's target and effect bits into the accumulated entry. -/
def summaryStep (acc : TSpellSummary) (s : EffectSlot) : TSpellSummary :=
  { Targets := acc.Targets ||| slotTargetBits s.EffectImplicitTargetA,
    Effects := acc.Effects ||| slotEffectBits s.Effect s.EffectApplyAuraName }

/-- The inner `j`-loop of `FillSpellSummary`: fold the per-slot target and
effect bits over the spell's effect slots, starting from the zeroed entry. -/
def spellSummaryOf (sp : SpellEntry) : TSpellSummary :=
  sp.slots.foldl summaryStep { Targets := 0, Effects := 0 }

/-- `FillSpellSummary()`: the `SpellSummary` array of `GetMaxEntry()`
entries; index `i` is zeroed and, when `LookupEntry i` succeeds, filled by
the slot loop. -/
def fillSpellSummary (store : SpellStore) : List TSpellSummary :=
  (List.range store.GetMaxEntry).map fun i =>
    match store.LookupEntry i with
    | none => { Targets := 0, Effects := 0 }
    | some tempSpell => spellSummaryOf tempSpell

/-- Reading the built index at an ability id; an id with no entry has no
capability, i.e. zero-valued flags (spec §3 invariant). -/
def summaryAt (l : List TSpellSummary) (i : Nat) : TSpellSummary :=
  l.getD i { Targets := 0, Effects := 0 }

/-! ## `ScriptedAI::EnterEvadeIfOutOfCombatArea` -/

def NPC_BROODLORD : Nat := 12017
def NPC_VOID_REAVER : Nat := 19516
def NPC_JAN_ALAI : Nat := 23578
def NPC_TALON_KING_IKISS : Nat := 18473
def NPC_KARGATH_BLADEFIST : Nat := 16808
def NPC_NETHERMANCER_SEPETHREA : Nat := 19221
def NPC_MOROES : Nat := 15687
def NPC_MOROGRIM_TIDEWALKER : Nat := 21213
def NPC_ANUBARAK : Nat := 29120
def NPC_SINDRAGOSA : Nat := 36853
def NPC_ZARITHRIAN : Nat := 39746

/-- `GetDistance2d(x2, y2) < c`, compared on squared distances (the source
compares the Euclidean 2d distance, a nonnegative float, against the
nonnegative constant `c`). -/
def distance2dLt (x1 y1 x2 y2 c : ℚ) : Bool :=
  decide ((x1 - x2) ^ 2 + (y1 - y2) ^ 2 < c ^ 2)

/-- Outcome of the `switch (m_creature->GetEntry())` geometric test. -/
inductive GeoOutcome where
  /-- some case's bound test fired `return false`: still inside -/
  | inside
  /-- a case ran to `break`: outside the authored region -/
  | outside
  /-- `default:`: no authored predicate for this entry -/
  | unknownEntry
deriving DecidableEq

/-- The `switch` of `ScriptedAI::EnterEvadeIfOutOfCombatArea` on the
creature's entry. The `NPC_MOROGRIM_TIDEWALKER` case has no `break` in the
source and falls through into the `NPC_ANUBARAK` case's y-band test; the
embedding reproduces that fallthrough. -/
def evadeRegionCheck (c : Creature) : GeoOutcome :=
  if c.GetEntry = NPC_BROODLORD then
    (if c.posZ > 448.60 then .inside else .outside)
  else if c.GetEntry = NPC_VOID_REAVER then
    (if distance2dLt c.posX c.posY 432.59 371.93 105.0 then .inside else .outside)
  else if c.GetEntry = NPC_JAN_ALAI then
    (if c.posZ > 12.0 then .inside else .outside)
  else if c.GetEntry = NPC_TALON_KING_IKISS then
    (if distance2dLt c.posX c.posY c.respawnX c.respawnY 70.0 then .inside else .outside)
  else if c.GetEntry = NPC_KARGATH_BLADEFIST then
    (if c.posX < 255.0 ∧ c.posX > 205.0 then .inside else .outside)
  else if c.GetEntry = NPC_NETHERMANCER_SEPETHREA then
    (if c.posX > 266.0 then .inside else .outside)
  else if c.GetEntry = NPC_MOROES then
    (if c.posX > -11027.73 ∧ c.posX < -10946.64 ∧
        c.posY > -1952.38 ∧ c.posY < -1861.11 then .inside else .outside)
  else if c.GetEntry = NPC_MOROGRIM_TIDEWALKER then
    (if c.posX > 304.12 ∧ c.posX < 457.35 then .inside
     else if c.posY < 281.0 ∧ c.posY > 228.0 then .inside  -- fallthrough: no break before the Anubarak case
     else .outside)
  else if c.GetEntry = NPC_ANUBARAK then
    (if c.posY < 281.0 ∧ c.posY > 228.0 then .inside else .outside)
  else if c.GetEntry = NPC_SINDRAGOSA then
    (if c.posX > 4314.0 then .inside else .outside)
  else if c.GetEntry = NPC_ZARITHRIAN then
    (if c.posZ > 87.0 then .inside else .outside)
  else .unknownEntry

/-- Whether the entry has an authored region case in the `switch` (anything
but `default:`). -/
def hasAuthoredRegion (entry : Nat) : Bool :=
  decide (entry = NPC_BROODLORD ∨ entry = NPC_VOID_REAVER ∨ entry = NPC_JAN_ALAI ∨
    entry = NPC_TALON_KING_IKISS ∨ entry = NPC_KARGATH_BLADEFIST ∨
    entry = NPC_NETHERMANCER_SEPETHREA ∨ entry = NPC_MOROES ∨
    entry = NPC_MOROGRIM_TIDEWALKER ∨ entry = NPC_ANUBARAK ∨
    entry = NPC_SINDRAGOSA ∨ entry = NPC_ZARITHRIAN)

/-- Observable outcome of one call to `EnterEvadeIfOutOfCombatArea`:
the returned `bool`, the new `m_uiEvadeCheckCooldown`, and counters for
how many times the geometric test was evaluated, `EnterEvadeMode()` was
invoked, and a diagnostic line was logged. No other state is touched. -/
structure EvadeCheckOutcome where
  result : Bool
  cooldown : Nat
  geoTests : Nat
  evadeCalls : Nat
  diagnostics : Nat
deriving DecidableEq

/-- `ScriptedAI::EnterEvadeIfOutOfCombatArea(diff)`, over the current
cooldown `m_uiEvadeCheckCooldown` (a `uint32`, initialized to 2500 in the
constructor). -/
def enterEvadeIfOutOfCombatArea (c : Creature) (m_uiEvadeCheckCooldown diff : Nat) :
    EvadeCheckOutcome :=
  if m_uiEvadeCheckCooldown < diff then
    -- m_uiEvadeCheckCooldown = 2500
    if c.IsInEvadeMode || !c.hasVictim then
      { result := false, cooldown := 2500, geoTests := 0, evadeCalls := 0, diagnostics := 0 }
    else
      match evadeRegionCheck c with
      | .inside =>
        { result := false, cooldown := 2500, geoTests := 1, evadeCalls := 0, diagnostics := 0 }
      | .outside =>
        { result := true, cooldown := 2500, geoTests := 1, evadeCalls := 1, diagnostics := 0 }
      | .unknownEntry =>
        { result := false, cooldown := 2500, geoTests := 0, evadeCalls := 0, diagnostics := 1 }
  else
    { result := false, cooldown := m_uiEvadeCheckCooldown - diff,
      geoTests := 0, evadeCalls := 0, diagnostics := 0 }

/-! ## `ScriptedAI::DoResetThreat`

The threat manager's internals (`ThreatList`, `getThreat`,
`modifyThreatPercent`) live outside this repository's source; they are
modelled from the spec: the threat list is a list of (guid, threat) entries,
`getThreat(unit)` reads the unit's accumulated threat, and
`modifyThreatPercent(unit, pct)` adjusts it by `pct` percent without
removing the entry. The map lookup `GetMap()->GetUnit(guid)` is modelled as
a resolvability predicate on guids. -/

/-- One entry of the threat list (`HostileReference`): the referenced
unit's guid and its accumulated threat. -/
structure ThreatEntry where
  guid : Nat
  threat : ℚ
deriving DecidableEq

/-- `ThreatManager::getThreat(unit)`: the threat of the entry referencing
`guid`, zero when there is none. -/
def getThreat (l : List ThreatEntry) (guid : Nat) : ℚ :=
  match l.find? (fun e => e.guid = guid) with
  | some e => e.threat
  | none => 0

/-- `ThreatManager::modifyThreatPercent(unit, pct)`: scale the threat of
the entry referencing `guid` by `(100 + pct) / 100`, keeping the entry. -/
def modifyThreatPercent (l : List ThreatEntry) (guid : Nat) (pct : Int) :
    List ThreatEntry :=
  l.map fun e =>
    if e.guid = guid then { e with threat := e.threat * (100 + (pct : ℚ)) / 100 } else e

/-- One iteration of `DoResetThreat`'s loop: resolve the entry's unit
through the map and, when it resolves with nonzero current threat, reduce
its threat by 100 percent. -/
def resetThreatStep (mapResolves : Nat → Bool) (cur : List ThreatEntry)
    (itr : ThreatEntry) : List ThreatEntry :=
  if mapResolves itr.guid && getThreat cur itr.guid ≠ 0 then
    modifyThreatPercent cur itr.guid (-100)
  else cur

/-- `ScriptedAI::DoResetThreat()`: the new threat list and the number of
diagnostic lines emitted. The loop iterates the threat list as read at
entry and mutates the manager's state entry by entry. -/
def doResetThreat (canHaveThreatList : Bool) (tList : List ThreatEntry)
    (mapResolves : Nat → Bool) : List ThreatEntry × Nat :=
  if !canHaveThreatList || tList.isEmpty then
    (tList, 1)
  else
    (tList.foldl (resetThreatStep mapResolves) tList, 0)

/-! ## Theorems -/

/-- C1: `canCast` returns false exactly when the target is absent, or the
ability is absent, or (not triggered and the caster is silenced), or (not
triggered and the caster's current resource of the ability's power type is
below the ability's cost), or the ability's range-table entry is missing,
or the target is not within `[minRange, maxRange]` of the caster. In
particular, when `triggered` is true the silence and resource checks are
bypassed: none of the remaining failure conditions mentions the caster's
resource, so an actor with 40 resource and an ability costing 50 gets
`true` provided the range checks pass. `canCast` is a pure function of its
arguments (no side effects). -/
theorem canCast_false_iff (c : Creature) (rangeStore : Nat → Option SpellRangeEntry)
    (target : Option TargetRef) (spellInfo : Option SpellEntry) (triggered : Bool) :
    canCast c rangeStore target spellInfo triggered = false ↔
      (target = none ∨ spellInfo = none ∨
        (triggered = false ∧ c.silenced = true) ∨
        (triggered = false ∧ ∃ sp ∈ spellInfo, c.GetPower sp.powerType < sp.manaCost) ∨
        (∃ sp ∈ spellInfo, rangeStore sp.rangeIndex = none) ∨
        (∃ sp ∈ spellInfo, ∃ t ∈ target, ∃ rg, rangeStore sp.rangeIndex = some rg ∧
          ¬(rg.minRange ≤ t.dist ∧ t.dist ≤ rg.maxRange))) := by
  cases target with
  | none => simp [canCast]
  | some t =>
    cases spellInfo with
    | none => simp [canCast]
    | some sp =>
      simp only [canCast, Option.mem_def, Option.some.injEq, reduceCtorEq,
        false_or, false_and, exists_eq_left]
      by_cases htr : triggered <;> by_cases hsil : c.silenced = true <;>
        by_cases hpow : c.GetPower sp.powerType < sp.manaCost <;>
          cases hrg : rangeStore sp.rangeIndex <;>
            simp_all [isInRange, not_lt, le_of_lt]

/-- An entry with no authored region hits the `default:` case of the
geometric switch. -/
lemma evadeRegionCheck_of_not_authored (c : Creature)
    (hu : hasAuthoredRegion c.GetEntry = false) :
    evadeRegionCheck c = GeoOutcome.unknownEntry := by
  simp only [hasAuthoredRegion, decide_eq_false_iff_not] at hu
  push_neg at hu
  obtain ⟨h1, h2, h3, h4, h5, h6, h7, h8, h9, h10, h11⟩ := hu
  simp only [evadeRegionCheck, if_neg h1, if_neg h2, if_neg h3, if_neg h4,
    if_neg h5, if_neg h6, if_neg h7, if_neg h8, if_neg h9, if_neg h10, if_neg h11]

/-- An entry with an authored region never hits the `default:` case of the
geometric switch. -/
lemma evadeRegionCheck_of_authored (c : Creature)
    (ha : hasAuthoredRegion c.GetEntry = true) :
    evadeRegionCheck c ≠ GeoOutcome.unknownEntry := by
  simp only [hasAuthoredRegion, decide_eq_true_eq] at ha
  simp only [evadeRegionCheck]
  rcases ha with h | h | h | h | h | h | h | h | h | h | h <;>
    simp only [h, NPC_BROODLORD, NPC_VOID_REAVER, NPC_JAN_ALAI,
      NPC_TALON_KING_IKISS, NPC_KARGATH_BLADEFIST, NPC_NETHERMANCER_SEPETHREA,
      NPC_MOROES, NPC_MOROGRIM_TIDEWALKER, NPC_ANUBARAK, NPC_SINDRAGOSA,
      NPC_ZARITHRIAN] <;>
    norm_num <;> split_ifs <;> simp

/-- A concrete creature used to instantiate universally quantified
theorems: a Broodlord in combat at the origin. -/
def testCreature : Creature where
  silenced := false
  GetPower := fun _ => 100
  m_spells := fun _ => 0
  posX := 0
  posY := 0
  posZ := 0
  respawnX := 0
  respawnY := 0
  GetEntry := NPC_BROODLORD
  IsInEvadeMode := false
  hasVictim := true

/-- C2 counterexample: with remaining cooldown 2500 and elapsed delta 2500
— an instance of "delta ≥ remaining cooldown" — the code takes the
decrement branch (`m_uiEvadeCheckCooldown < diff` is strict): the cooldown
becomes 0 instead of resetting to 2500, and the geometric test does not
execute, contradicting the claim. -/
theorem evadeCooldown_boundary_cex :
    2500 ≥ 2500 ∧
    (enterEvadeIfOutOfCombatArea testCreature 2500 2500).cooldown = 0 ∧
    (enterEvadeIfOutOfCombatArea testCreature 2500 2500).geoTests = 0 :=
  ⟨le_refl 2500, rfl, rfl⟩

/-- C2 (amended): if delta ≤ remaining cooldown the evade-boundary check
is skipped (returns no-evade) and the cooldown decreases by exactly delta;
if delta > remaining cooldown (strictly) the cooldown resets to the fixed
interval 2500 and the geometric test executes exactly once in that call,
provided the actor is not already evading, has a victim, and its type has
an authored region. -/
theorem evadeCooldown_amended (c : Creature) (cd diff : Nat) :
    (diff ≤ cd →
      enterEvadeIfOutOfCombatArea c cd diff =
        { result := false, cooldown := cd - diff, geoTests := 0,
          evadeCalls := 0, diagnostics := 0 }) ∧
    (cd < diff →
      (enterEvadeIfOutOfCombatArea c cd diff).cooldown = 2500 ∧
      (c.IsInEvadeMode = false → c.hasVictim = true →
        hasAuthoredRegion c.GetEntry = true →
        (enterEvadeIfOutOfCombatArea c cd diff).geoTests = 1)) := by
  constructor
  · intro h
    rw [enterEvadeIfOutOfCombatArea, if_neg (by omega)]
  · intro h
    constructor
    · rw [enterEvadeIfOutOfCombatArea, if_pos h]
      split
      · rfl
      · split <;> rfl
    · intro he hv ha
      rw [enterEvadeIfOutOfCombatArea, if_pos h, if_neg (by simp [he, hv])]
      have hne : evadeRegionCheck c ≠ GeoOutcome.unknownEntry :=
        evadeRegionCheck_of_authored c ha
      cases hg : evadeRegionCheck c <;> simp [hg] at hne ⊢

/-- C2 witness: a skipped check with cooldown 2500 and delta 1000, and an
executed check with cooldown 100 and delta 200 on a creature with an
authored region. -/
theorem evadeCooldown_amended_witness :
    enterEvadeIfOutOfCombatArea testCreature 2500 1000 =
      { result := false, cooldown := 1500, geoTests := 0, evadeCalls := 0,
        diagnostics := 0 } ∧
    (enterEvadeIfOutOfCombatArea testCreature 100 200).cooldown = 2500 ∧
    (enterEvadeIfOutOfCombatArea testCreature 100 200).geoTests = 1 :=
  ⟨(evadeCooldown_amended testCreature 2500 1000).1 (by omega),
   ((evadeCooldown_amended testCreature 100 200).2 (by omega)).1,
   ((evadeCooldown_amended testCreature 100 200).2 (by omega)).2 rfl rfl (by decide)⟩

/-- C10: when the elapsed delta exceeds the remaining cooldown but the
actor is already in evade mode or has no current victim, the function
returns false with the cooldown already reset to 2500, the geometric test
does not run, `EnterEvadeMode` is not invoked, and no diagnostic is
emitted: the cooldown reset happens before the short-circuit, so the next
test opportunity is a full interval away even though no test executed. -/
theorem evade_reset_precedes_shortcircuit (c : Creature) (cd diff : Nat)
    (h : cd < diff) (h2 : c.IsInEvadeMode = true ∨ c.hasVictim = false) :
    enterEvadeIfOutOfCombatArea c cd diff =
      { result := false, cooldown := 2500, geoTests := 0, evadeCalls := 0,
        diagnostics := 0 } := by
  rw [enterEvadeIfOutOfCombatArea, if_pos h, if_pos]
  rcases h2 with h2 | h2 <;> simp [h2]

/-- A creature already in evade mode, for the C10 witness. -/
def evadingCreature : Creature :=
  { testCreature with IsInEvadeMode := true }

/-- C10 witness: an evading Broodlord with cooldown 100 and delta 200. -/
theorem evade_reset_precedes_shortcircuit_witness :
    enterEvadeIfOutOfCombatArea evadingCreature 100 200 =
      { result := false, cooldown := 2500, geoTests := 0, evadeCalls := 0,
        diagnostics := 0 } :=
  evade_reset_precedes_shortcircuit evadingCreature 100 200 (by omega) (Or.inl rfl)

/-- C8: for an actor whose type has no authored evade-region case, the
check (cooldown elapsed, in combat, not evading) emits exactly one
diagnostic line, performs no transition (`EnterEvadeMode` is never
invoked), and returns false. -/
theorem evade_unknown_type_noop (c : Creature) (cd diff : Nat) (h : cd < diff)
    (he : c.IsInEvadeMode = false) (hv : c.hasVictim = true)
    (hu : hasAuthoredRegion c.GetEntry = false) :
    enterEvadeIfOutOfCombatArea c cd diff =
      { result := false, cooldown := 2500, geoTests := 0, evadeCalls := 0,
        diagnostics := 1 } := by
  rw [enterEvadeIfOutOfCombatArea, if_pos h, if_neg (by simp [he, hv]),
    evadeRegionCheck_of_not_authored c hu]

/-- A creature whose entry appears in no case of the switch, for the C8
witness. -/
def unknownTypeCreature : Creature :=
  { testCreature with GetEntry := 424242 }

/-- C8 witness: entry 424242 with elapsed cooldown, in combat. -/
theorem evade_unknown_type_noop_witness :
    enterEvadeIfOutOfCombatArea unknownTypeCreature 0 1 =
      { result := false, cooldown := 2500, geoTests := 0, evadeCalls := 0,
        diagnostics := 1 } :=
  evade_unknown_type_noop unknownTypeCreature 0 1 (by omega) rfl rfl (by decide)

/-- A Morogrim Tidewalker in combat at x = 500 (outside the authored band
`(304.12, 457.35)`) and y = 250 (inside the Anubarak y-band `(228, 281)`). -/
def morogrimAtX500Y250 : Creature :=
  { testCreature with GetEntry := NPC_MOROGRIM_TIDEWALKER, posX := 500, posY := 250 }

/-- C3: the `NPC_MOROGRIM_TIDEWALKER` case has no `break` and falls
through into the `NPC_ANUBARAK` y-band test. At x = 500 — outside the
Morogrim band, where the claim (and the source's own "Natural Box made by
room" comment) demands an evade — the fallthrough sees y = 250 inside
Anubarak's band and returns false without invoking `EnterEvadeMode`, even
though the cooldown had elapsed and the geometric test ran. -/
theorem morogrim_fallthrough_no_evade :
    ¬ (304.12 < morogrimAtX500Y250.posX ∧ morogrimAtX500Y250.posX < 457.35) ∧
    (enterEvadeIfOutOfCombatArea morogrimAtX500Y250 0 1).result = false ∧
    (enterEvadeIfOutOfCombatArea morogrimAtX500Y250 0 1).evadeCalls = 0 ∧
    (enterEvadeIfOutOfCombatArea morogrimAtX500Y250 0 1).geoTests = 1 := by
  have hgeo : evadeRegionCheck morogrimAtX500Y250 = GeoOutcome.inside := by
    simp only [evadeRegionCheck, morogrimAtX500Y250, testCreature]
    norm_num [NPC_BROODLORD, NPC_VOID_REAVER, NPC_JAN_ALAI, NPC_TALON_KING_IKISS,
      NPC_KARGATH_BLADEFIST, NPC_NETHERMANCER_SEPETHREA, NPC_MOROES,
      NPC_MOROGRIM_TIDEWALKER]
  have hrun : enterEvadeIfOutOfCombatArea morogrimAtX500Y250 0 1 =
      { result := false, cooldown := 2500, geoTests := 1, evadeCalls := 0,
        diagnostics := 0 } := by
    rw [enterEvadeIfOutOfCombatArea, if_pos (by omega),
      if_neg (by simp [morogrimAtX500Y250, testCreature]), hgeo]
  refine ⟨by norm_num [morogrimAtX500Y250, testCreature], ?_, ?_, ?_⟩ <;> simp [hrun]

/-- C6: for every ability id outside `[0, GetMaxEntry)` or absent from the
static ability database, the built `SpellSummary` index yields zero-valued
`Targets` and `Effects` bitsets. -/
theorem fillSpellSummary_zero_of_missing (store : SpellStore) (i : Nat)
    (h : store.GetMaxEntry ≤ i ∨ store.LookupEntry i = none) :
    summaryAt (fillSpellSummary store) i = { Targets := 0, Effects := 0 } := by
  unfold summaryAt fillSpellSummary
  by_cases hi : i < store.GetMaxEntry
  · rw [List.getD_eq_getElem?_getD, List.getElem?_map, List.getElem?_range hi]
    rcases h with h | h
    · omega
    · simp [h]
  · have hlen : ((List.range store.GetMaxEntry).map fun i =>
        match store.LookupEntry i with
        | none => ({ Targets := 0, Effects := 0 } : TSpellSummary)
        | some tempSpell => spellSummaryOf tempSpell).length ≤ i := by
      simpa using Nat.le_of_not_lt hi
    simp [List.getD_eq_getElem?_getD, List.getElem?_eq_none hlen]

/-- An effect slot contributing nothing, padding demo spells to the
source's three slots. -/
def emptySlot : EffectSlot :=
  { Effect := 0, EffectImplicitTargetA := 0, EffectApplyAuraName := 0 }

/-- A slot applying a periodic-heal aura to a single enemy. -/
def demoAuraSlot : EffectSlot :=
  { Effect := SPELL_EFFECT_APPLY_AURA,
    EffectImplicitTargetA := TARGET_CHAIN_DAMAGE,
    EffectApplyAuraName := SPELL_AURA_PERIODIC_HEAL }

/-- A demo ability: single-enemy targeted, applies a periodic-heal aura. -/
def demoSpell : SpellEntry :=
  { SchoolMask := 1, Mechanic := 0, manaCost := 50, powerType := 0,
    rangeIndex := 3,
    slots := [demoAuraSlot, emptySlot, emptySlot] }

/-- A two-slot spell store: id 0 resolves to `demoSpell`, id 1 is absent. -/
def demoStore : SpellStore :=
  { GetMaxEntry := 2,
    LookupEntry := fun i => if i = 0 then some demoSpell else none }

/-- C6 witness: an id beyond `GetMaxEntry` and an in-range id absent from
the database both read back as zero-valued flags. -/
theorem fillSpellSummary_zero_of_missing_witness :
    summaryAt (fillSpellSummary demoStore) 5 = { Targets := 0, Effects := 0 } ∧
    summaryAt (fillSpellSummary demoStore) 1 = { Targets := 0, Effects := 0 } :=
  ⟨fillSpellSummary_zero_of_missing demoStore 5 (Or.inl (by decide)),
   fillSpellSummary_zero_of_missing demoStore 1 (Or.inr rfl)⟩

/-- `testBit` of a guarded one-bit contribution. -/
lemma testBit_ite_shift (P : Prop) [Decidable P] (k b : Nat) :
    (if P then 1 <<< k else 0).testBit b = (decide P && decide (k = b)) := by
  split <;> simp_all [Nat.shiftLeft_eq, Nat.testBit_two_pow]

/-- Bit `b` of the targets accumulated by the slot fold: set initially or
contributed by some slot. -/
lemma summaryFold_Targets_testBit (l : List EffectSlot) (acc : TSpellSummary) (b : Nat) :
    ((l.foldl summaryStep acc).Targets.testBit b) =
      (acc.Targets.testBit b ||
        l.any fun s => (slotTargetBits s.EffectImplicitTargetA).testBit b) := by
  induction l generalizing acc with
  | nil => simp
  | cons s t ih => simp [summaryStep, ih, Nat.testBit_lor, Bool.or_assoc]

/-- Bit `b` of the effects accumulated by the slot fold: set initially or
contributed by some slot. -/
lemma summaryFold_Effects_testBit (l : List EffectSlot) (acc : TSpellSummary) (b : Nat) :
    ((l.foldl summaryStep acc).Effects.testBit b) =
      (acc.Effects.testBit b ||
        l.any fun s => (slotEffectBits s.Effect s.EffectApplyAuraName).testBit b) := by
  induction l generalizing acc with
  | nil => simp
  | cons s t ih => simp [summaryStep, ih, Nat.testBit_lor, Bool.or_assoc]

/-- The single-enemy bit of one slot's target contribution. -/
lemma slotTargetBits_testBit_one (t : Nat) :
    (slotTargetBits t).testBit 1 =
      decide (t = TARGET_CHAIN_DAMAGE ∨ t = TARGET_CURRENT_ENEMY_COORDINATES) := by
  simp only [slotTargetBits, SELECT_TARGET_SELF, SELECT_TARGET_SINGLE_ENEMY,
    SELECT_TARGET_AOE_ENEMY, SELECT_TARGET_ANY_ENEMY, SELECT_TARGET_SINGLE_FRIEND,
    SELECT_TARGET_AOE_FRIEND, SELECT_TARGET_ANY_FRIEND,
    Nat.testBit_lor, testBit_ite_shift]
  simp [Bool.decide_or]

/-- The any-enemy bit of one slot's target contribution. -/
lemma slotTargetBits_testBit_three (t : Nat) :
    (slotTargetBits t).testBit 3 =
      decide (t = TARGET_CHAIN_DAMAGE ∨ t = TARGET_CURRENT_ENEMY_COORDINATES ∨
        t = TARGET_ALL_ENEMY_IN_AREA ∨ t = TARGET_ALL_ENEMY_IN_AREA_INSTANT ∨
        t = TARGET_CASTER_COORDINATES ∨ t = TARGET_ALL_ENEMY_IN_AREA_CHANNELED) := by
  simp only [slotTargetBits, SELECT_TARGET_SELF, SELECT_TARGET_SINGLE_ENEMY,
    SELECT_TARGET_AOE_ENEMY, SELECT_TARGET_ANY_ENEMY, SELECT_TARGET_SINGLE_FRIEND,
    SELECT_TARGET_AOE_FRIEND, SELECT_TARGET_ANY_FRIEND,
    Nat.testBit_lor, testBit_ite_shift]
  simp [Bool.decide_or]

/-- Reading the built index at an id that resolves in the database gives
the slot-fold of that ability's descriptors. -/
lemma summaryAt_fillSpellSummary (store : SpellStore) (i : Nat) (sp : SpellEntry)
    (hi : i < store.GetMaxEntry) (hl : store.LookupEntry i = some sp) :
    summaryAt (fillSpellSummary store) i = spellSummaryOf sp := by
  unfold summaryAt fillSpellSummary
  rw [List.getD_eq_getElem?_getD, List.getElem?_map, List.getElem?_range hi]
  simp [hl]

/-- C7: in the built CapabilityIndex, whenever the single-enemy
target-class bit of an ability is set the any-enemy bit is set too (every
descriptor that sets single-enemy also sets any-enemy); and a slot that is
an apply-persistent-effect whose aura is the periodic-heal variant sets
both the applies-persistent-effect bit and the healing bit. -/
theorem capabilityIndex_bit_implications (store : SpellStore) (i : Nat)
    (sp : SpellEntry) (hi : i < store.GetMaxEntry)
    (hl : store.LookupEntry i = some sp) :
    ((summaryAt (fillSpellSummary store) i).Targets.testBit
        (SELECT_TARGET_SINGLE_ENEMY - 1) = true →
      (summaryAt (fillSpellSummary store) i).Targets.testBit
        (SELECT_TARGET_ANY_ENEMY - 1) = true) ∧
    (∀ s ∈ sp.slots, s.Effect = SPELL_EFFECT_APPLY_AURA →
      s.EffectApplyAuraName = SPELL_AURA_PERIODIC_HEAL →
      (summaryAt (fillSpellSummary store) i).Effects.testBit
        (SELECT_EFFECT_AURA - 1) = true ∧
      (summaryAt (fillSpellSummary store) i).Effects.testBit
        (SELECT_EFFECT_HEALING - 1) = true) := by
  rw [summaryAt_fillSpellSummary store i sp hi hl]
  constructor
  · intro h
    rw [spellSummaryOf, summaryFold_Targets_testBit] at h ⊢
    simp only [SELECT_TARGET_SINGLE_ENEMY, SELECT_TARGET_ANY_ENEMY] at h ⊢
    norm_num at h ⊢
    obtain ⟨s, hs, hbit⟩ := h
    refine ⟨s, hs, ?_⟩
    rw [slotTargetBits_testBit_one] at hbit
    rw [slotTargetBits_testBit_three]
    simp only [decide_eq_true_eq] at hbit ⊢
    tauto
  · intro s hs he ha
    have hbits : (slotEffectBits s.Effect s.EffectApplyAuraName).testBit 2 = true ∧
        (slotEffectBits s.Effect s.EffectApplyAuraName).testBit 1 = true := by
      rw [he, ha]; decide
    constructor <;>
      · rw [spellSummaryOf, summaryFold_Effects_testBit]
        simp only [SELECT_EFFECT_AURA, SELECT_EFFECT_HEALING]
        norm_num
        exact ⟨s, hs, by simp [hbits.1, hbits.2]⟩

/-- C7 witness: `demoSpell` (stored at id 0 of `demoStore`) has a
chain-damage slot and a periodic-heal aura slot; both implications fire. -/
theorem capabilityIndex_bit_implications_witness :
    (summaryAt (fillSpellSummary demoStore) 0).Targets.testBit
        (SELECT_TARGET_ANY_ENEMY - 1) = true ∧
    (summaryAt (fillSpellSummary demoStore) 0).Effects.testBit
        (SELECT_EFFECT_AURA - 1) = true ∧
    (summaryAt (fillSpellSummary demoStore) 0).Effects.testBit
        (SELECT_EFFECT_HEALING - 1) = true := by
  have h := capabilityIndex_bit_implications demoStore 0 demoSpell
    (by decide) rfl
  refine ⟨h.1 (by decide), ?_, ?_⟩
  · exact (h.2 demoAuraSlot (by simp [demoSpell]) rfl rfl).1
  · exact (h.2 demoAuraSlot (by simp [demoSpell]) rfl rfl).2

/-- Peeling one `continue` guard off the candidate-loop chain. -/
lemma if_none_eq_some {α : Type} (P : Prop) [Decidable P] (x : Option α) (a : α)
    (h : (if P then none else x) = some a) : ¬P ∧ x = some a := by
  by_cases hp : P
  · rw [if_pos hp] at h; exact absurd h (by simp)
  · rw [if_neg hp] at h; exact ⟨hp, h⟩

/-- A spell surviving every `continue` of the candidate loop resolves in
the database, passes the nonzero target/effect filters, costs no more than
the caster's current resource of its power type, and has a range entry
whose band contains the target's distance. -/
lemma spellViable_some (c : Creature) (store : SpellStore)
    (rangeStore : Nat → Option SpellRangeEntry)
    (SpellSummary : Nat → TSpellSummary) (dist : ℚ) (school mechanic : Int)
    (selectTargets powerCostMin powerCostMax : Nat) (rangeMin rangeMax : ℚ)
    (selectEffects : Nat) (spellId : Nat) (sp : SpellEntry)
    (h : spellViable c store rangeStore SpellSummary dist school mechanic
      selectTargets powerCostMin powerCostMax rangeMin rangeMax selectEffects
      spellId = some sp) :
    store.LookupEntry spellId = some sp ∧
    (selectTargets ≠ 0 →
      (SpellSummary spellId).Targets &&& (1 <<< (selectTargets - 1)) ≠ 0) ∧
    (selectEffects ≠ 0 →
      (SpellSummary spellId).Effects &&& (1 <<< (selectEffects - 1)) ≠ 0) ∧
    sp.manaCost ≤ c.GetPower sp.powerType ∧
    ∃ rg, rangeStore sp.rangeIndex = some rg ∧
      rg.minRange ≤ dist ∧ dist ≤ rg.maxRange := by
  unfold spellViable at h
  cases hlk : store.LookupEntry spellId with
  | none => rw [hlk] at h; exact absurd h (by simp)
  | some tsp =>
    rw [hlk] at h
    obtain ⟨h1, h⟩ := if_none_eq_some _ _ _ h
    obtain ⟨h2, h⟩ := if_none_eq_some _ _ _ h
    obtain ⟨h3, h⟩ := if_none_eq_some _ _ _ h
    obtain ⟨h4, h⟩ := if_none_eq_some _ _ _ h
    obtain ⟨h5, h⟩ := if_none_eq_some _ _ _ h
    obtain ⟨h6, h⟩ := if_none_eq_some _ _ _ h
    obtain ⟨h7, h⟩ := if_none_eq_some _ _ _ h
    cases hrg : rangeStore tsp.rangeIndex with
    | none => rw [hrg] at h; exact absurd h (by simp)
    | some rg =>
      rw [hrg] at h
      obtain ⟨h8, h⟩ := if_none_eq_some _ _ _ h
      obtain ⟨h9, h⟩ := if_none_eq_some _ _ _ h
      obtain ⟨h10, h⟩ := if_none_eq_some _ _ _ h
      have hsp : tsp = sp := by simpa using h
      subst hsp
      simp only [isWithinDistInMap, Bool.or_eq_true, Bool.not_eq_true',
        decide_eq_true_eq, decide_eq_false_iff_not, not_or] at h10
      refine ⟨rfl, fun ht => ?_, fun hef => ?_,
        Nat.le_of_not_lt h7, rg, hrg, ?_, ?_⟩
      · exact fun hbits => h1 ⟨ht, hbits⟩
      · exact fun hbits => h2 ⟨hef, hbits⟩
      · exact le_of_lt (lt_of_not_le h10.1)
      · exact not_not.mp h10.2

/-- A spell returned by `SelectSpell` is a member of the candidate list
built by the loop. -/
lemma selectSpell_mem_candidates (c : Creature) (store : SpellStore)
    (rangeStore : Nat → Option SpellRangeEntry)
    (SpellSummary : Nat → TSpellSummary) (t : TargetRef)
    (school mechanic : Int) (selectTargets powerCostMin powerCostMax : Nat)
    (rangeMin rangeMax : ℚ) (selectEffects : Nat) (r : Nat) (sp : SpellEntry)
    (h : selectSpell c store rangeStore SpellSummary (some t) school mechanic
      selectTargets powerCostMin powerCostMax rangeMin rangeMax selectEffects
      r = some sp) :
    sp ∈ selectSpellCandidates c store rangeStore SpellSummary t.dist school
      mechanic selectTargets powerCostMin powerCostMax rangeMin rangeMax
      selectEffects := by
  simp only [selectSpell] at h
  split_ifs at h with hsil hlen
  exact List.getElem?_mem h

/-- C4: `SelectSpell` returns none immediately whenever the target is
absent or the caster is silenced; and a returned ability always resolves
in the database at one of the caster's known-spell slots, never costs more
than the caster's current resource of its power type, never fails a
nonzero target-class or effect-class filter, and always has a range entry
whose `[minRange, maxRange]` band contains the target's distance. -/
theorem selectSpell_never_violates_filters (c : Creature) (store : SpellStore)
    (rangeStore : Nat → Option SpellRangeEntry)
    (SpellSummary : Nat → TSpellSummary) (t : TargetRef)
    (school mechanic : Int) (selectTargets powerCostMin powerCostMax : Nat)
    (rangeMin rangeMax : ℚ) (selectEffects : Nat) (r : Nat) :
    (selectSpell c store rangeStore SpellSummary none school mechanic
      selectTargets powerCostMin powerCostMax rangeMin rangeMax selectEffects
      r = none) ∧
    (c.silenced = true →
      selectSpell c store rangeStore SpellSummary (some t) school mechanic
        selectTargets powerCostMin powerCostMax rangeMin rangeMax
        selectEffects r = none) ∧
    (∀ sp, selectSpell c store rangeStore SpellSummary (some t) school
        mechanic selectTargets powerCostMin powerCostMax rangeMin rangeMax
        selectEffects r = some sp →
      ∃ i : Fin 4, store.LookupEntry (c.m_spells i) = some sp ∧
        (selectTargets ≠ 0 →
          (SpellSummary (c.m_spells i)).Targets &&&
            (1 <<< (selectTargets - 1)) ≠ 0) ∧
        (selectEffects ≠ 0 →
          (SpellSummary (c.m_spells i)).Effects &&&
            (1 <<< (selectEffects - 1)) ≠ 0) ∧
        sp.manaCost ≤ c.GetPower sp.powerType ∧
        ∃ rg, rangeStore sp.rangeIndex = some rg ∧
          rg.minRange ≤ t.dist ∧ t.dist ≤ rg.maxRange) := by
  refine ⟨rfl, fun hsil => ?_, fun sp h => ?_⟩
  · simp [selectSpell, hsil]
  · have hmem := selectSpell_mem_candidates c store rangeStore SpellSummary t
      school mechanic selectTargets powerCostMin powerCostMax rangeMin
      rangeMax selectEffects r sp h
    simp only [selectSpellCandidates, List.mem_filterMap] at hmem
    obtain ⟨i, _, hv⟩ := hmem
    obtain ⟨hlk, hT, hE, hpow, hrg⟩ := spellViable_some c store rangeStore
      SpellSummary t.dist school mechanic selectTargets powerCostMin
      powerCostMax rangeMin rangeMax selectEffects (c.m_spells i) sp hv
    exact ⟨i, hlk, hT, hE, hpow, hrg⟩

/-- A range store with one entry: range index 3 is the band `[5, 30]`. -/
def demoRangeStore : Nat → Option SpellRangeEntry := fun i =>
  if i = 3 then some { minRange := 5, maxRange := 30 } else none

/-- The capability index built from `demoStore`, as a total lookup. -/
def demoSummary : Nat → TSpellSummary := fun i =>
  summaryAt (fillSpellSummary demoStore) i

/-- A target 10 units away. -/
def demoTarget : TargetRef := { dist := 10 }

/-- A silenced copy of the test creature. -/
def silencedCreature : Creature :=
  { testCreature with silenced := true }

/-- C4 witness: the silenced caster gets none; the unsilenced caster's
returned ability (spell id 0 = `demoSpell`, cost 50 ≤ power 100, band
`[5, 30]` containing distance 10, single-enemy and aura filters) satisfies
every guarantee. -/
theorem selectSpell_never_violates_filters_witness :
    (selectSpell silencedCreature demoStore demoRangeStore demoSummary
      (some demoTarget) (-1) (-1) SELECT_TARGET_SINGLE_ENEMY 0 0 0 0
      SELECT_EFFECT_AURA 7 = none) ∧
    (∃ i : Fin 4, demoStore.LookupEntry (testCreature.m_spells i) = some demoSpell ∧
      (SELECT_TARGET_SINGLE_ENEMY ≠ 0 →
        (demoSummary (testCreature.m_spells i)).Targets &&&
          (1 <<< (SELECT_TARGET_SINGLE_ENEMY - 1)) ≠ 0) ∧
      (SELECT_EFFECT_AURA ≠ 0 →
        (demoSummary (testCreature.m_spells i)).Effects &&&
          (1 <<< (SELECT_EFFECT_AURA - 1)) ≠ 0) ∧
      demoSpell.manaCost ≤ testCreature.GetPower demoSpell.powerType ∧
      ∃ rg, demoRangeStore demoSpell.rangeIndex = some rg ∧
        rg.minRange ≤ demoTarget.dist ∧ demoTarget.dist ≤ rg.maxRange) :=
  ⟨(selectSpell_never_violates_filters silencedCreature demoStore
      demoRangeStore demoSummary demoTarget (-1) (-1)
      SELECT_TARGET_SINGLE_ENEMY 0 0 0 0 SELECT_EFFECT_AURA 7).2.1 rfl,
   (selectSpell_never_violates_filters testCreature demoStore demoRangeStore
      demoSummary demoTarget (-1) (-1) SELECT_TARGET_SINGLE_ENEMY 0 0 0 0
      SELECT_EFFECT_AURA 7).2.2 demoSpell (by decide)⟩

/-- C5: when no known ability survives the filters `SelectSpell` returns
none; when exactly one survives it returns that ability for every value of
the random source; and whatever the random source's value, a returned
ability is a member of the surviving candidate list. -/
theorem selectSpell_candidate_selection (c : Creature) (store : SpellStore)
    (rangeStore : Nat → Option SpellRangeEntry)
    (SpellSummary : Nat → TSpellSummary) (t : TargetRef)
    (school mechanic : Int) (selectTargets powerCostMin powerCostMax : Nat)
    (rangeMin rangeMax : ℚ) (selectEffects : Nat) (r : Nat)
    (hsil : c.silenced = false) :
    (selectSpellCandidates c store rangeStore SpellSummary t.dist school
        mechanic selectTargets powerCostMin powerCostMax rangeMin rangeMax
        selectEffects = [] →
      selectSpell c store rangeStore SpellSummary (some t) school mechanic
        selectTargets powerCostMin powerCostMax rangeMin rangeMax
        selectEffects r = none) ∧
    (∀ sp, selectSpellCandidates c store rangeStore SpellSummary t.dist
        school mechanic selectTargets powerCostMin powerCostMax rangeMin
        rangeMax selectEffects = [sp] →
      selectSpell c store rangeStore SpellSummary (some t) school mechanic
        selectTargets powerCostMin powerCostMax rangeMin rangeMax
        selectEffects r = some sp) ∧
    (∀ sp, selectSpell c store rangeStore SpellSummary (some t) school
        mechanic selectTargets powerCostMin powerCostMax rangeMin rangeMax
        selectEffects r = some sp →
      sp ∈ selectSpellCandidates c store rangeStore SpellSummary t.dist
        school mechanic selectTargets powerCostMin powerCostMax rangeMin
        rangeMax selectEffects) := by
  refine ⟨fun hnil => ?_, fun sp hone => ?_, fun sp h =>
    selectSpell_mem_candidates c store rangeStore SpellSummary t school
      mechanic selectTargets powerCostMin powerCostMax rangeMin rangeMax
      selectEffects r sp h⟩
  · simp [selectSpell, hsil, hnil]
  · simp [selectSpell, hsil, hone, urand, Nat.mod_one]

/-- A caster knowing only spell id 0 (slot 0); the other slots hold the
unresolvable id 7. -/
def singleSpellCreature : Creature :=
  { testCreature with m_spells := fun i => if i = 0 then 0 else 7 }

/-- A caster all of whose known-spell slots hold the unresolvable id 7. -/
def noSpellCreature : Creature :=
  { testCreature with m_spells := fun _ => 7 }

/-- C5 witness: with no surviving ability the result is none; with exactly
one surviving ability (`demoSpell` at slot 0) the result is that ability
at the arbitrary random seed 12345. -/
theorem selectSpell_candidate_selection_witness :
    selectSpell noSpellCreature demoStore demoRangeStore demoSummary
      (some demoTarget) (-1) (-1) 0 0 0 0 0 0 12345 = none ∧
    selectSpell singleSpellCreature demoStore demoRangeStore demoSummary
      (some demoTarget) (-1) (-1) 0 0 0 0 0 0 12345 = some demoSpell :=
  ⟨(selectSpell_candidate_selection noSpellCreature demoStore demoRangeStore
      demoSummary demoTarget (-1) (-1) 0 0 0 0 0 0 12345 rfl).1 (by decide),
   (selectSpell_candidate_selection singleSpellCreature demoStore
      demoRangeStore demoSummary demoTarget (-1) (-1) 0 0 0 0 0 0 12345
      rfl).2.1 demoSpell (by decide)⟩

/-- Zero the threat of every entry whose guid lies in `gs`, keeping all
entries in place. -/
def zeroGuids (gs : List Nat) (l : List ThreatEntry) : List ThreatEntry :=
  l.map fun e => if e.guid ∈ gs then { e with threat := 0 } else e

/-- The net per-entry effect of `DoResetThreat`'s loop: an entry whose
unit resolves through the map and has nonzero threat is zeroed in place;
any other entry is untouched. -/
def resetThreatEntry (mapResolves : Nat → Bool) (e : ThreatEntry) : ThreatEntry :=
  if mapResolves e.guid && decide (e.threat ≠ 0) then { e with threat := 0 } else e

/-- A 100-percent reduction zeroes the matching entries' threat. -/
lemma modifyThreatPercent_neg100 (l : List ThreatEntry) (g : Nat) :
    modifyThreatPercent l g (-100) = zeroGuids [g] l := by
  unfold modifyThreatPercent zeroGuids
  apply List.map_congr_left
  intro e _
  by_cases h : e.guid = g <;> simp [h]

/-- Reading the threat of a guid off a cons cell. -/
lemma getThreat_cons (e : ThreatEntry) (l : List ThreatEntry) (g : Nat) :
    getThreat (e :: l) g = if e.guid = g then e.threat else getThreat l g := by
  by_cases h : e.guid = g
  · rw [if_pos h]
    unfold getThreat
    rw [List.find?_cons_of_pos _ (by simpa using h)]
  · rw [if_neg h]
    unfold getThreat
    rw [List.find?_cons_of_neg _ (by simpa using h)]

/-- `zeroGuids` acts entrywise on a cons cell. -/
lemma zeroGuids_cons_entry (gs : List Nat) (e : ThreatEntry)
    (l : List ThreatEntry) :
    zeroGuids gs (e :: l) =
      (if e.guid ∈ gs then { e with threat := 0 } else e) :: zeroGuids gs l := rfl

/-- Zeroing one guid leaves the threat read at any other guid unchanged. -/
lemma getThreat_zeroGuids_ne (g : Nat) (l : List ThreatEntry) (g' : Nat)
    (hne : g' ≠ g) : getThreat (zeroGuids [g] l) g' = getThreat l g' := by
  induction l with
  | nil => rfl
  | cons hd tl ih =>
    rw [zeroGuids_cons_entry]
    by_cases hgg : hd.guid = g
    · rw [if_pos (by simp [hgg]), getThreat_cons, getThreat_cons hd tl g']
      have hh : ¬ hd.guid = g' := fun hcontra => hne (hcontra ▸ hgg)
      rw [if_neg (show ¬ ({ hd with threat := 0 } : ThreatEntry).guid = g' from hh),
        if_neg hh]
      exact ih
    · rw [if_neg (by simp [hgg]), getThreat_cons, getThreat_cons hd tl g']
      by_cases hh : hd.guid = g'
      · rw [if_pos hh, if_pos hh]
      · rw [if_neg hh, if_neg hh]
        exact ih

/-- With pairwise distinct guids, `getThreat` reads back each member's own
threat. -/
lemma getThreat_mem_of_nodup (l : List ThreatEntry) :
    (l.map ThreatEntry.guid).Nodup → ∀ e ∈ l, getThreat l e.guid = e.threat := by
  induction l with
  | nil =>
    intro _ e he
    cases he
  | cons hd tl ih =>
    intro hnd e he
    simp only [List.map_cons, List.nodup_cons] at hnd
    rw [getThreat_cons]
    rcases List.mem_cons.1 he with he | he
    · subst he
      rw [if_pos rfl]
    · have hne : hd.guid ≠ e.guid := by
        intro hcontra
        exact hnd.1 (hcontra ▸ List.mem_map_of_mem ThreatEntry.guid he)
      rw [if_neg hne]
      exact ih hnd.2 e he

/-- Zeroing one guid and then a set of guids is zeroing the enlarged set. -/
lemma zeroGuids_cons (g : Nat) (gs : List Nat) (l : List ThreatEntry) :
    zeroGuids gs (zeroGuids [g] l) = zeroGuids (g :: gs) l := by
  unfold zeroGuids
  rw [List.map_map]
  apply List.map_congr_left
  intro e _
  by_cases h1 : e.guid = g <;> by_cases h2 : e.guid ∈ gs <;>
    simp [Function.comp, h1, h2]

/-- The loop of `DoResetThreat`, run on a working list agreeing with the
iterated entries and with pairwise distinct guids, zeroes exactly the
resolvable nonzero entries. -/
lemma foldl_resetThreatStep (mapResolves : Nat → Bool)
    (todo : List ThreatEntry) :
    ∀ cur : List ThreatEntry, (todo.map ThreatEntry.guid).Nodup →
      (∀ e ∈ todo, getThreat cur e.guid = e.threat) →
      todo.foldl (resetThreatStep mapResolves) cur =
        zeroGuids ((todo.filter fun e =>
          mapResolves e.guid && decide (e.threat ≠ 0)).map ThreatEntry.guid)
          cur := by
  induction todo with
  | nil =>
    intro cur _ _
    simp [zeroGuids]
  | cons hd tl ih =>
    intro cur hnd hinv
    have hhd : getThreat cur hd.guid = hd.threat := hinv hd (List.mem_cons_self hd tl)
    have hnd' : (tl.map ThreatEntry.guid).Nodup := by
      simp only [List.map_cons, List.nodup_cons] at hnd
      exact hnd.2
    have hnotmem : hd.guid ∉ tl.map ThreatEntry.guid := by
      simp only [List.map_cons, List.nodup_cons] at hnd
      exact hnd.1
    by_cases hc : (mapResolves hd.guid && decide (hd.threat ≠ 0)) = true
    · have hstep : resetThreatStep mapResolves cur hd = zeroGuids [hd.guid] cur := by
        rw [resetThreatStep, if_pos (by rw [hhd]; exact hc),
          modifyThreatPercent_neg100]
      have hinv' : ∀ e ∈ tl, getThreat (zeroGuids [hd.guid] cur) e.guid = e.threat := by
        intro e he
        have : e.guid ≠ hd.guid := by
          intro hcontra
          exact hnotmem (hcontra ▸ List.mem_map_of_mem ThreatEntry.guid he)
        rw [getThreat_zeroGuids_ne hd.guid cur e.guid this]
        exact hinv e (List.mem_cons_of_mem hd he)
      rw [List.foldl_cons, hstep, ih (zeroGuids [hd.guid] cur) hnd' hinv',
        zeroGuids_cons,
        List.filter_cons_of_pos
          (p := fun e : ThreatEntry => mapResolves e.guid && decide (e.threat ≠ 0)) hc,
        List.map_cons]
    · have hstep : resetThreatStep mapResolves cur hd = cur := by
        rw [resetThreatStep, if_neg]
        rw [hhd]
        simpa using hc
      have hinv' : ∀ e ∈ tl, getThreat cur e.guid = e.threat :=
        fun e he => hinv e (List.mem_cons_of_mem hd he)
      rw [List.foldl_cons, hstep, ih cur hnd' hinv',
        List.filter_cons_of_neg
          (p := fun e : ThreatEntry => mapResolves e.guid && decide (e.threat ≠ 0)) hc]

/-- With pairwise distinct guids, zeroing the guids of the resolvable
nonzero entries is the per-entry reset map. -/
lemma zeroGuids_filter_eq_map (mapResolves : Nat → Bool) (l : List ThreatEntry)
    (hnd : (l.map ThreatEntry.guid).Nodup) :
    zeroGuids ((l.filter fun e =>
        mapResolves e.guid && decide (e.threat ≠ 0)).map ThreatEntry.guid) l =
      l.map (resetThreatEntry mapResolves) := by
  unfold zeroGuids
  apply List.map_congr_left
  intro e he
  by_cases hc : (mapResolves e.guid && decide (e.threat ≠ 0)) = true
  · have hmem : e.guid ∈ (l.filter fun e =>
        mapResolves e.guid && decide (e.threat ≠ 0)).map ThreatEntry.guid :=
      List.mem_map_of_mem ThreatEntry.guid (List.mem_filter.2 ⟨he, hc⟩)
    rw [if_pos hmem, resetThreatEntry, if_pos hc]
  · have hnotmem : e.guid ∉ (l.filter fun e =>
        mapResolves e.guid && decide (e.threat ≠ 0)).map ThreatEntry.guid := by
      intro hmem
      obtain ⟨e', he'mem, he'guid⟩ := List.mem_map.1 hmem
      obtain ⟨he'l, he'c⟩ := List.mem_filter.1 he'mem
      have : e' = e := List.inj_on_of_nodup_map hnd he'l he he'guid
      subst this
      exact hc he'c
    rw [if_neg hnotmem, resetThreatEntry, if_neg hc]

/-- C9: `DoResetThreat` on an actor that cannot hold a threat list or
whose list is empty emits exactly one diagnostic and mutates nothing;
otherwise (with the threat list's guids pairwise distinct, as a threat
list references each unit once) it emits no diagnostic and maps each
entry in place: an entry whose unit resolves through the map and has
nonzero threat is reduced by 100 percent (zeroed) while remaining in the
list, and unresolvable or zero-threat entries are left unchanged. -/
theorem doResetThreat_spec (canHaveThreatList : Bool)
    (tList : List ThreatEntry) (mapResolves : Nat → Bool) :
    ((canHaveThreatList = false ∨ tList = []) →
      doResetThreat canHaveThreatList tList mapResolves = (tList, 1)) ∧
    (canHaveThreatList = true → tList ≠ [] →
      (tList.map ThreatEntry.guid).Nodup →
      doResetThreat canHaveThreatList tList mapResolves =
        (tList.map (resetThreatEntry mapResolves), 0)) := by
  constructor
  · rintro (h | h) <;> simp [doResetThreat, h]
  · intro hch hne hnd
    rw [doResetThreat, if_neg (by simp [hch, hne]),
      foldl_resetThreatStep mapResolves tList tList hnd
        (fun e he => getThreat_mem_of_nodup tList hnd e he),
      zeroGuids_filter_eq_map mapResolves tList hnd]

/-- A three-entry threat list: guid 1 with threat 50, guid 2 with zero
threat, guid 3 with threat 7. -/
def demoThreatList : List ThreatEntry :=
  [{ guid := 1, threat := 50 }, { guid := 2, threat := 0 },
   { guid := 3, threat := 7 }]

/-- A map resolver failing exactly for guid 3. -/
def demoResolves : Nat → Bool := fun g => g ≠ 3

/-- C9 witness: the no-op branch on an actor without a threat list, and
the mutating branch zeroing only guid 1 (resolvable, nonzero) while guid 2
(zero threat) and guid 3 (unresolvable) stay untouched. -/
theorem doResetThreat_spec_witness :
    doResetThreat false demoThreatList demoResolves = (demoThreatList, 1) ∧
    doResetThreat true demoThreatList demoResolves =
      ([{ guid := 1, threat := 0 }, { guid := 2, threat := 0 },
        { guid := 3, threat := 7 }], 0) :=
  ⟨(doResetThreat_spec false demoThreatList demoResolves).1 (Or.inl rfl),
   by
    rw [(doResetThreat_spec true demoThreatList demoResolves).2 rfl
      (by decide) (by decide)]
    decide⟩

end ScCreature
